import Mathlib

/-!
# Cart service (`service/service.go`)

A shallow embedding of the `service` package: the six operations of `Service`
over an abstract `DatabaseInterface`, with explicit state passing for the
store and Go `int` arithmetic rendered as `Int` wrapped to 64 bits.
-/

set_option autoImplicit false

namespace service

/-! ## Go `int` -/

/-- Reduction of an exact integer to the value a 64-bit Go `int` holds
(two's complement wrap-around, as Go defines for signed overflow). -/
def wrapInt (x : Int) : Int := (x + 2 ^ 63) % 2 ^ 64 - 2 ^ 63

/-- The values a 64-bit Go `int` can hold. -/
def IsGoInt (x : Int) : Prop := -(2 ^ 63) ≤ x ∧ x < 2 ^ 63

instance (x : Int) : Decidable (IsGoInt x) := by
  unfold IsGoInt; infer_instance

/-! ## Entities (package `entity`, as used by the service) -/

/-- Catalog entry: `entity.Product`. -/
structure Product where
  Name : String
  Price : Int
  deriving DecidableEq, Repr

/-- Cart line: `entity.CartItem`. -/
structure CartItem where
  ProductName : String
  Price : Int
  Quantity : Int
  deriving DecidableEq, Repr

/-- Result of a payment: `entity.PaymentInformation`. -/
structure PaymentInformation where
  ProductList : List CartItem
  TotalPrice : Int
  MoneyPaid : Int
  Change : Int
  deriving DecidableEq, Repr

/-- The Go zero value `entity.PaymentInformation{}`. -/
def PaymentInformation.zero : PaymentInformation :=
  { ProductList := [], TotalPrice := 0, MoneyPaid := 0, Change := 0 }

/-- An error value produced by the database collaborator. -/
structure DBError where
  msg : String
  deriving DecidableEq, Repr

/-- Go `error` values seen by a caller of the service: those the service
creates itself with `fmt.Errorf`, and those of the database, which the
service returns as they are. The two kinds are distinct values in Go even
when their messages coincide. -/
inductive Error where
  | errorf (msg : String)
  | database (err : DBError)
  deriving DecidableEq, Repr

/-! ## The database collaborator -/

/-- The four methods of `database.DatabaseInterface` the service calls, over
a store state `σ`. Reads are functions of the state; `SaveCartItems` returns
the error (if any) together with the state it leaves behind. -/
structure DatabaseInterface (σ : Type) where
  GetProductByName : σ → String → Except DBError Product
  GetProductData : σ → List Product
  GetCartItems : σ → Except DBError (List CartItem)
  SaveCartItems : σ → List CartItem → Option DBError × σ

/-! ## The service -/

section Service

variable {σ : Type}

/-- The loop `for i, item := range carts { if item.ProductName == productName ... }`
shared by `AddCart` and `RemoveCart`: the first index whose item has the
given name, if there is one. -/
def findIndex (productName : String) : List CartItem → Option Nat
  | [] => none
  | item :: rest =>
    if item.ProductName = productName then some 0
    else (findIndex productName rest).map (· + 1)

/-- The statement `carts[i].Quantity += quantity`. -/
def addQuantity (quantity : Int) : Nat → List CartItem → List CartItem
  | _, [] => []
  | 0, item :: rest => { item with Quantity := wrapInt (item.Quantity + quantity) } :: rest
  | i + 1, item :: rest => item :: addQuantity quantity i rest

/-- The statement `return s.database.SaveCartItems(carts)`: the error of the
save, unchanged, is the error of the operation. -/
def returnSave (r : Option DBError × σ) : Option Error × σ :=
  (r.1.map Error.database, r.2)

/-- Embedding of `Service.AddCart`. -/
def AddCart (db : DatabaseInterface σ) (s : σ) (productName : String) (quantity : Int) :
    Option Error × σ :=
  if quantity ≤ 0 then (some (Error.errorf "invalid quantity"), s)
  else
    match db.GetProductByName s productName with
    | .error err => (some (Error.database err), s)
    | .ok product =>
      match db.GetCartItems s with
      | .error err => (some (Error.database err), s)
      | .ok carts =>
        match findIndex productName carts with
        | some i => returnSave (db.SaveCartItems s (addQuantity quantity i carts))
        | none =>
          let newItem : CartItem :=
            { ProductName := product.Name, Price := product.Price, Quantity := quantity }
          match db.SaveCartItems s (carts ++ [newItem]) with
          | (some err, s') => (some (Error.database err), s')
          | (none, s') => (none, s')

/-- Embedding of `Service.RemoveCart`. -/
def RemoveCart (db : DatabaseInterface σ) (s : σ) (productName : String) : Option Error × σ :=
  match db.GetCartItems s with
  | .error err => (some (Error.database err), s)
  | .ok carts =>
    match findIndex productName carts with
    | some i => returnSave (db.SaveCartItems s (carts.take i ++ carts.drop (i + 1)))
    | none => (some (Error.errorf "product not found"), s)

/-- Embedding of `Service.ShowCart`. -/
def ShowCart (db : DatabaseInterface σ) (s : σ) : (List CartItem × Option Error) × σ :=
  match db.GetCartItems s with
  | .error err => (([], some (Error.database err)), s)
  | .ok carts => ((carts, none), s)

/-- Embedding of `Service.ResetCart`. -/
def ResetCart (db : DatabaseInterface σ) (s : σ) : Option Error × σ :=
  match db.SaveCartItems s [] with
  | (some err, s') => (some (Error.database err), s')
  | (none, s') => (none, s')

/-- Embedding of `Service.GetAllProduct`. -/
def GetAllProduct (db : DatabaseInterface σ) (s : σ) : (List Product × Option Error) × σ :=
  ((db.GetProductData s, none), s)

/-- The loop `for _, item := range carts { totalPrice += item.Price * item.Quantity }`
started from `totalPrice`. -/
def sumLoop (totalPrice : Int) : List CartItem → Int
  | [] => totalPrice
  | item :: rest => sumLoop (wrapInt (totalPrice + wrapInt (item.Price * item.Quantity))) rest

/-- Embedding of `Service.Pay`. -/
def Pay (db : DatabaseInterface σ) (s : σ) (money : Int) :
    (PaymentInformation × Option Error) × σ :=
  match db.GetCartItems s with
  | .error err => ((PaymentInformation.zero, some (Error.database err)), s)
  | .ok carts =>
    let totalPrice := sumLoop 0 carts
    if money < totalPrice then
      ((PaymentInformation.zero, some (Error.errorf "money is not enough")), s)
    else
      let paymentInfo : PaymentInformation :=
        { ProductList := carts, TotalPrice := totalPrice, MoneyPaid := money,
          Change := wrapInt (money - totalPrice) }
      match ResetCart db s with
      | (some err, s') => ((PaymentInformation.zero, some err), s')
      | (none, s') => ((paymentInfo, none), s')

end Service

/-! ## Specification-side notions -/

/-- Exact (unbounded) total of a cart: the sum of `Price * Quantity`. -/
def cartTotal : List CartItem → Int
  | [] => 0
  | item :: rest => item.Price * item.Quantity + cartTotal rest

/-- The cart holds an entry with the given product name. -/
def HasEntry (productName : String) (carts : List CartItem) : Prop :=
  ∃ item ∈ carts, item.ProductName = productName

/-- Number of cart entries with the given product name. -/
def countEntries (productName : String) (carts : List CartItem) : Nat :=
  carts.countP (fun item => decide (item.ProductName = productName))

/-- Cart data model of the specification: prices are non-negative and
quantities positive. -/
def CartWellFormed (carts : List CartItem) : Prop :=
  ∀ item ∈ carts, 0 ≤ item.Price ∧ 0 < item.Quantity

/-- Store contract: after a successful `SaveCartItems`, `GetCartItems`
returns what was saved. -/
def SaveThenGet {σ : Type} (db : DatabaseInterface σ) : Prop :=
  ∀ (s s' : σ) (items : List CartItem),
    db.SaveCartItems s items = (none, s') → db.GetCartItems s' = .ok items

/-! ## An in-memory store -/

/-- State of the in-memory store: the catalog and the cart. -/
structure MemStore where
  products : List Product
  carts : List CartItem
  deriving DecidableEq, Repr

/-- Modelled from the spec: the `database` package is not among the sources;
this is the in-memory store described by the collaborator contract (lookup by
name fails when the name is absent, cart reads return the stored items,
saves replace the cart wholesale). It never fails on cart reads or saves. -/
def memDB : DatabaseInterface MemStore where
  GetProductByName := fun s name =>
    match s.products.find? (fun p => decide (p.Name = name)) with
    | some p => .ok p
    | none => .error { msg := "product not found" }
  GetProductData := fun s => s.products
  GetCartItems := fun s => .ok s.carts
  SaveCartItems := fun s items => (none, { s with carts := items })

instance (productName : String) (carts : List CartItem) :
    Decidable (HasEntry productName carts) := by
  unfold HasEntry; infer_instance

instance (carts : List CartItem) : Decidable (CartWellFormed carts) := by
  unfold CartWellFormed; infer_instance

/-! ## Sample data -/

/-- A catalog with one product. -/
def appleCatalog : List Product := [⟨"Apple", 10⟩]

/-- A cart holding five apples. -/
def appleCart : List CartItem := [⟨"Apple", 10, 5⟩]

/-- A cart of three lines, the middle one stored at an older price. -/
def mixedCart : List CartItem := [⟨"Pear", 4, 1⟩, ⟨"Apple", 7, 3⟩, ⟨"Fig", 2, 6⟩]

/-- A catalog whose only product costs `2 ^ 62`. -/
def bigCatalog : List Product := [⟨"A", 4611686018427387904⟩]

/-- The cart after adding four of that product: its exact total is `2 ^ 64`. -/
def overflowCart : List CartItem := [⟨"A", 4611686018427387904, 4⟩]

/-- A catalog whose only product costs `1`. -/
def unitCatalog : List Product := [⟨"A", 1⟩]

/-- A cart whose only line holds the largest `int` quantity. -/
def fullCart : List CartItem := [⟨"A", 1, 9223372036854775807⟩]

/-- The cart after one more is added to `fullCart`: the quantity has wrapped
to the smallest `int`. -/
def wrappedCart : List CartItem := [⟨"A", 1, -9223372036854775808⟩]

/-! ## Calls and cart invariants -/

/-- A call of one of the operations of the service that read or write the cart. -/
inductive Call where
  | addCart (productName : String) (quantity : Int)
  | removeCart (productName : String)
  | showCart
  | resetCart
  | pay (money : Int)
  deriving DecidableEq, Repr

/-- The store state a call leaves behind, whether it succeeds or fails. -/
def Call.after {σ : Type} (db : DatabaseInterface σ) (s : σ) : Call → σ
  | .addCart productName quantity => (AddCart db s productName quantity).2
  | .removeCart productName => (RemoveCart db s productName).2
  | .showCart => (ShowCart db s).2
  | .resetCart => (ResetCart db s).2
  | .pay money => (Pay db s money).2

/-- No two cart entries have the same product name. -/
def NoDuplicateNames (carts : List CartItem) : Prop :=
  (carts.map CartItem.ProductName).Nodup

/-- Every cart entry has a positive quantity. -/
def PositiveQuantities (carts : List CartItem) : Prop :=
  ∀ item ∈ carts, 0 < item.Quantity

instance (carts : List CartItem) : Decidable (PositiveQuantities carts) := by
  unfold PositiveQuantities; infer_instance

/-- The cart held by the store in state `s` satisfies `P`. -/
def CartSatisfies {σ : Type} (P : List CartItem → Prop) (db : DatabaseInterface σ) (s : σ) :
    Prop :=
  ∀ carts, db.GetCartItems s = .ok carts → P carts

/-- Store contract: a save is atomic. After `SaveCartItems`, failed or not, the
cart is what was saved or what it was before. -/
def SaveAtomic {σ : Type} (db : DatabaseInterface σ) : Prop :=
  ∀ (s s' : σ) (items : List CartItem) (err : Option DBError),
    db.SaveCartItems s items = (err, s') →
      db.GetCartItems s' = .ok items ∨ db.GetCartItems s' = db.GetCartItems s

/-- Store contract: a save leaves the catalog as it was. -/
def SaveKeepsCatalog {σ : Type} (db : DatabaseInterface σ) : Prop :=
  ∀ (s s' : σ) (items : List CartItem) (err : Option DBError),
    db.SaveCartItems s items = (err, s') →
      db.GetProductData s' = db.GetProductData s
        ∧ ∀ name, db.GetProductByName s' name = db.GetProductByName s name

/-- In state `s` the quantity addition of an `AddCart` call stays within the
`int` range: every entry with the name of the call has room for the added
quantity. Other calls do no such addition. -/
def Call.NoOverflow {σ : Type} (db : DatabaseInterface σ) (s : σ) : Call → Prop
  | .addCart productName quantity =>
    ∀ carts, db.GetCartItems s = .ok carts →
      ∀ item ∈ carts, item.ProductName = productName → item.Quantity + quantity < 2 ^ 63
  | _ => True

/-! ## A store that can fail -/

/-- State of a store with switchable failures: the catalog, the cart, and the
errors (if any) with which cart reads and saves currently fail. -/
structure FlakyStore where
  products : List Product
  carts : List CartItem
  readError : Option DBError
  saveError : Option DBError
  deriving DecidableEq, Repr

/-- Modelled from the spec: the `database` package is not among the sources;
this is a store after the collaborator contract whose cart reads and saves
fail with the errors set in its state, a failed save leaving the cart as it
was. -/
def flakyDB : DatabaseInterface FlakyStore where
  GetProductByName := fun s name =>
    match s.products.find? (fun p => decide (p.Name = name)) with
    | some p => .ok p
    | none => .error { msg := "product not found" }
  GetProductData := fun s => s.products
  GetCartItems := fun s =>
    match s.readError with
    | some err => .error err
    | none => .ok s.carts
  SaveCartItems := fun s items =>
    match s.saveError with
    | some err => (some err, s)
    | none => (none, { s with carts := items })

/-- A store holding five apples whose saves fail. -/
def brokenSaveStore : FlakyStore :=
  { products := appleCatalog, carts := appleCart, readError := none,
    saveError := some { msg := "disk full" } }

/-- A store holding five apples whose cart reads fail. -/
def brokenReadStore : FlakyStore :=
  { products := appleCatalog, carts := appleCart,
    readError := some { msg := "disk unreadable" }, saveError := none }

/-- A store with an empty cart whose saves fail. -/
def brokenSaveEmptyStore : FlakyStore :=
  { products := appleCatalog, carts := [], readError := none,
    saveError := some { msg := "disk full" } }

/-! # Theorems -/

/-! ## Go `int` arithmetic -/

theorem wrapInt_eq_self {x : Int} (h : IsGoInt x) : wrapInt x = x := by
  unfold IsGoInt at h
  unfold wrapInt
  omega

theorem isGoInt_wrapInt (x : Int) : IsGoInt (wrapInt x) := by
  unfold IsGoInt wrapInt
  omega

theorem wrapInt_add_wrapInt (a b : Int) : wrapInt (a + wrapInt b) = wrapInt (a + b) := by
  unfold wrapInt
  omega

theorem wrapInt_wrapInt_add (a b : Int) : wrapInt (wrapInt a + b) = wrapInt (a + b) := by
  unfold wrapInt
  omega

theorem wrapInt_zero : wrapInt 0 = 0 := by decide

/-- The payment loop computes the exact total reduced to the `int` range. -/
theorem sumLoop_wrapInt (t : Int) (carts : List CartItem) :
    sumLoop (wrapInt t) carts = wrapInt (t + cartTotal carts) := by
  induction carts generalizing t with
  | nil => simp [sumLoop, cartTotal]
  | cons item rest ih =>
    simp only [sumLoop, cartTotal]
    rw [wrapInt_add_wrapInt, wrapInt_wrapInt_add, ih, Int.add_assoc]

theorem sumLoop_zero (carts : List CartItem) : sumLoop 0 carts = wrapInt (cartTotal carts) := by
  have h := sumLoop_wrapInt 0 carts
  rw [wrapInt_zero, Int.zero_add] at h
  exact h

/-! ## The search loop -/

theorem findIndex_eq_none {productName : String} {carts : List CartItem} :
    findIndex productName carts = none ↔ ¬ HasEntry productName carts := by
  induction carts with
  | nil => simp [findIndex, HasEntry]
  | cons item rest ih =>
    by_cases h : item.ProductName = productName
    · simp [findIndex, HasEntry, h]
    · simp [findIndex, HasEntry, h] at ih ⊢
      exact ih

/-- When the cart splits around the first entry with the given name, the
search loop stops at that entry. -/
theorem findIndex_first {productName : String} (pre post : List CartItem) (item : CartItem)
    (hpre : ∀ x ∈ pre, x.ProductName ≠ productName) (hitem : item.ProductName = productName) :
    findIndex productName (pre ++ item :: post) = some pre.length := by
  induction pre with
  | nil => simp [findIndex, hitem]
  | cons x xs ih =>
    have hx : x.ProductName ≠ productName := hpre x (List.mem_cons_self _ _)
    have hxs : ∀ y ∈ xs, y.ProductName ≠ productName :=
      fun y hy => hpre y (List.mem_cons_of_mem _ hy)
    simp [findIndex, hx, ih hxs]

theorem addQuantity_first (quantity : Int) (pre post : List CartItem) (item : CartItem) :
    addQuantity quantity pre.length (pre ++ item :: post) =
      pre ++ { item with Quantity := wrapInt (item.Quantity + quantity) } :: post := by
  induction pre with
  | nil => simp [addQuantity]
  | cons x xs ih => simp [addQuantity, ih]

theorem remove_first (pre post : List CartItem) (item : CartItem) :
    (pre ++ item :: post).take pre.length ++ (pre ++ item :: post).drop (pre.length + 1) =
      pre ++ post := by
  induction pre with
  | nil => simp
  | cons x xs ih => simp [ih]

/-! ## The in-memory store keeps its contract -/

theorem memDB_saveThenGet : SaveThenGet memDB := by
  intro s s' items h
  simp only [memDB, Prod.mk.injEq, true_and] at h
  subst h
  rfl

/-! ## Payment -/

section Payment

variable {σ : Type}

/-- What `Pay` returns once the cart has been read, in terms of the exact
total reduced to the `int` range. -/
theorem Pay_of_read (db : DatabaseInterface σ) (s : σ) (carts : List CartItem) (money : Int)
    (hread : db.GetCartItems s = .ok carts) :
    Pay db s money =
      if money < wrapInt (cartTotal carts) then
        ((PaymentInformation.zero, some (Error.errorf "money is not enough")), s)
      else
        match ResetCart db s with
        | (some err, s') => ((PaymentInformation.zero, some err), s')
        | (none, s') =>
          (({ ProductList := carts, TotalPrice := wrapInt (cartTotal carts), MoneyPaid := money,
              Change := wrapInt (money - wrapInt (cartTotal carts)) }, none), s') := by
  unfold Pay
  rw [hread]
  simp only [sumLoop_zero]

theorem ResetCart_of_save (db : DatabaseInterface σ) (s s' : σ)
    (hsave : db.SaveCartItems s [] = (none, s')) : ResetCart db s = (none, s') := by
  unfold ResetCart
  rw [hsave]

/-- C1 (amended): when the cart read succeeds, the exact total and
`money - total` both fit in a 64-bit Go `int`, `money ≥ total`, and the save
of the reset succeeds, `Pay` returns without error the cart as `ProductList`,
the exact total, `money` and `money - total`, and a `ShowCart` issued
afterwards returns the empty cart. -/
theorem Pay_succeeds_in_range (db : DatabaseInterface σ) (s s' : σ) (carts : List CartItem)
    (money : Int)
    (hread : db.GetCartItems s = .ok carts)
    (htotal : IsGoInt (cartTotal carts))
    (hchange : IsGoInt (money - cartTotal carts))
    (hmoney : cartTotal carts ≤ money)
    (hsave : db.SaveCartItems s [] = (none, s'))
    (hlaw : SaveThenGet db) :
    Pay db s money =
        (({ ProductList := carts, TotalPrice := cartTotal carts, MoneyPaid := money,
            Change := money - cartTotal carts }, none), s')
      ∧ ShowCart db s' = (([], none), s') := by
  constructor
  · rw [Pay_of_read db s carts money hread, wrapInt_eq_self htotal, wrapInt_eq_self hchange,
      if_neg (by omega), ResetCart_of_save db s s' hsave]
  · unfold ShowCart
    rw [hlaw s s' [] hsave]

end Payment

section Payment2

variable {σ : Type}

/-- The operation `ResetCart` only ever fails with the error of the database. -/
theorem ResetCart_error (db : DatabaseInterface σ) (s : σ) (msg : String) :
    (ResetCart db s).1 ≠ some (Error.errorf msg) := by
  unfold ResetCart
  rcases db.SaveCartItems s [] with ⟨_ | err, s'⟩ <;> simp

/-- C2 (amended): when the cart read succeeds, the exact total fits in a
64-bit Go `int` and `Pay money` succeeds, the returned `TotalPrice` is the
exact sum of `Price * Quantity` over the cart (`0` for the empty cart) and
`MoneyPaid` is `money`. -/
theorem Pay_totalPrice_in_range (db : DatabaseInterface σ) (s : σ) (carts : List CartItem)
    (money : Int)
    (hread : db.GetCartItems s = .ok carts)
    (htotal : IsGoInt (cartTotal carts))
    (hok : (Pay db s money).1.2 = none) :
    (Pay db s money).1.1.TotalPrice = cartTotal carts
      ∧ (Pay db s money).1.1.MoneyPaid = money
      ∧ (carts = [] → (Pay db s money).1.1.TotalPrice = 0) := by
  rw [Pay_of_read db s carts money hread, wrapInt_eq_self htotal] at hok ⊢
  by_cases hlt : money < cartTotal carts
  · rw [if_pos hlt] at hok
    simp at hok
  · rw [if_neg hlt] at hok ⊢
    rcases hreset : ResetCart db s with ⟨_ | err, s'⟩
    · refine ⟨rfl, rfl, ?_⟩
      intro hnil
      subst hnil
      rfl
    · rw [hreset] at hok
      simp at hok

/-- C3 (amended): when the cart read succeeds and the exact total fits in a
64-bit Go `int`, `Pay money` with `money < total` returns the error
"money is not enough" and the store state it was called in, and `Pay money`
with `money ≥ total` never returns that error. -/
theorem Pay_insufficient_in_range (db : DatabaseInterface σ) (s : σ) (carts : List CartItem)
    (money : Int)
    (hread : db.GetCartItems s = .ok carts)
    (htotal : IsGoInt (cartTotal carts)) :
    (money < cartTotal carts →
        Pay db s money =
          ((PaymentInformation.zero, some (Error.errorf "money is not enough")), s))
      ∧ (cartTotal carts ≤ money →
        (Pay db s money).1.2 ≠ some (Error.errorf "money is not enough")) := by
  rw [Pay_of_read db s carts money hread, wrapInt_eq_self htotal]
  constructor
  · intro hlt
    rw [if_pos hlt]
  · intro hge
    rw [if_neg (by omega)]
    have hreset := ResetCart_error db s "money is not enough"
    rcases hr : ResetCart db s with ⟨_ | err, s'⟩
    · simp
    · rw [hr] at hreset
      simpa using hreset

end Payment2

/-- Paying 60 for five apples at 10 in the in-memory store. -/
theorem Pay_succeeds_in_range_witness :
    Pay memDB ⟨appleCatalog, appleCart⟩ 60 =
        (({ ProductList := appleCart, TotalPrice := cartTotal appleCart, MoneyPaid := 60,
            Change := 60 - cartTotal appleCart }, none), ⟨appleCatalog, []⟩)
      ∧ ShowCart memDB ⟨appleCatalog, []⟩ = (([], none), ⟨appleCatalog, []⟩) :=
  Pay_succeeds_in_range memDB ⟨appleCatalog, appleCart⟩ ⟨appleCatalog, []⟩ appleCart 60 rfl
    (by decide) (by decide) (by decide) rfl memDB_saveThenGet

/-- Starting from an empty cart and a product of price 1, adding the largest
`int` quantity and then one more leaves a cart whose total is `-(2 ^ 63)`.
There `Pay 0` succeeds, with `0 ≥ total`, but the change has wrapped around
and is not `money - total`. -/
theorem Pay_change_counterexample :
    AddCart memDB ⟨unitCatalog, []⟩ "A" 9223372036854775807 = (none, ⟨unitCatalog, fullCart⟩)
      ∧ AddCart memDB ⟨unitCatalog, fullCart⟩ "A" 1 = (none, ⟨unitCatalog, wrappedCart⟩)
      ∧ memDB.GetCartItems ⟨unitCatalog, wrappedCart⟩ = .ok wrappedCart
      ∧ cartTotal wrappedCart ≤ 0
      ∧ memDB.SaveCartItems ⟨unitCatalog, wrappedCart⟩ [] = (none, ⟨unitCatalog, []⟩)
      ∧ (Pay memDB ⟨unitCatalog, wrappedCart⟩ 0).1.2 = none
      ∧ (Pay memDB ⟨unitCatalog, wrappedCart⟩ 0).1.1.Change = -9223372036854775808
      ∧ (Pay memDB ⟨unitCatalog, wrappedCart⟩ 0).1.1.Change ≠ 0 - cartTotal wrappedCart := by
  refine ⟨by decide, by decide, rfl, by decide, rfl, by decide, by decide, by decide⟩

/-- The total reported when paying 60 for five apples at 10. -/
theorem Pay_totalPrice_in_range_witness :
    (Pay memDB ⟨appleCatalog, appleCart⟩ 60).1.1.TotalPrice = cartTotal appleCart
      ∧ (Pay memDB ⟨appleCatalog, appleCart⟩ 60).1.1.MoneyPaid = 60
      ∧ (appleCart = [] → (Pay memDB ⟨appleCatalog, appleCart⟩ 60).1.1.TotalPrice = 0) :=
  Pay_totalPrice_in_range memDB ⟨appleCatalog, appleCart⟩ appleCart 60 rfl (by decide) (by decide)

/-- Four items at `2 ^ 62` each, put in the cart by `AddCart`: the exact total
is `2 ^ 64`, yet `Pay 0` succeeds and reports a total of `0`. -/
theorem Pay_totalPrice_counterexample :
    AddCart memDB ⟨bigCatalog, []⟩ "A" 4 = (none, ⟨bigCatalog, overflowCart⟩)
      ∧ memDB.GetCartItems ⟨bigCatalog, overflowCart⟩ = .ok overflowCart
      ∧ cartTotal overflowCart = 18446744073709551616
      ∧ (Pay memDB ⟨bigCatalog, overflowCart⟩ 0).1.2 = none
      ∧ (Pay memDB ⟨bigCatalog, overflowCart⟩ 0).1.1.TotalPrice = 0
      ∧ (Pay memDB ⟨bigCatalog, overflowCart⟩ 0).1.1.TotalPrice ≠ cartTotal overflowCart := by
  refine ⟨by decide, rfl, by decide, by decide, by decide, by decide⟩

/-- Paying 40 for five apples at 10 is refused and the store is untouched. -/
theorem Pay_insufficient_in_range_witness :
    (40 < cartTotal appleCart →
        Pay memDB ⟨appleCatalog, appleCart⟩ 40 =
          ((PaymentInformation.zero, some (Error.errorf "money is not enough")),
            ⟨appleCatalog, appleCart⟩))
      ∧ (cartTotal appleCart ≤ 40 →
        (Pay memDB ⟨appleCatalog, appleCart⟩ 40).1.2
          ≠ some (Error.errorf "money is not enough")) :=
  Pay_insufficient_in_range memDB ⟨appleCatalog, appleCart⟩ appleCart 40 rfl (by decide)

/-- Four items at `2 ^ 62` each, put in the cart by `AddCart`: 5 is less than
the exact total, yet `Pay 5` does not fail; it succeeds and empties the cart. -/
theorem Pay_insufficient_counterexample :
    AddCart memDB ⟨bigCatalog, []⟩ "A" 4 = (none, ⟨bigCatalog, overflowCart⟩)
      ∧ memDB.GetCartItems ⟨bigCatalog, overflowCart⟩ = .ok overflowCart
      ∧ 5 < cartTotal overflowCart
      ∧ (Pay memDB ⟨bigCatalog, overflowCart⟩ 5).1.2 ≠ some (Error.errorf "money is not enough")
      ∧ Pay memDB ⟨bigCatalog, overflowCart⟩ 5 =
          (({ ProductList := overflowCart, TotalPrice := 0, MoneyPaid := 5, Change := 5 }, none),
            ⟨bigCatalog, []⟩) := by
  refine ⟨by decide, rfl, by decide, by decide, by decide⟩

/-! ## Adding and removing -/

section Cart

variable {σ : Type}

theorem returnSave_eq_none (r : Option DBError × σ) (s' : σ) :
    returnSave r = (none, s') ↔ r = (none, s') := by
  rcases r with ⟨_ | err, t⟩ <;> simp [returnSave]

theorem returnSave_error (r : Option DBError × σ) (msg : String) :
    (returnSave r).1 ≠ some (Error.errorf msg) := by
  rcases r with ⟨_ | err, t⟩ <;> simp [returnSave]

/-- An `AddCart` of a name the cart lacks saves the cart with a new item at the end. -/
theorem AddCart_of_absent (db : DatabaseInterface σ) (s : σ) (productName : String)
    (product : Product) (carts : List CartItem) (quantity : Int)
    (hq : 0 < quantity)
    (hlookup : db.GetProductByName s productName = .ok product)
    (hread : db.GetCartItems s = .ok carts)
    (hnew : ¬ HasEntry productName carts) :
    AddCart db s productName quantity =
      returnSave (db.SaveCartItems s
        (carts ++ [{ ProductName := product.Name, Price := product.Price,
                     Quantity := quantity }])) := by
  unfold AddCart
  rw [if_neg (by omega), hlookup, hread]
  simp only
  rw [findIndex_eq_none.mpr hnew]
  simp only
  rcases db.SaveCartItems s _ with ⟨_ | err, t⟩ <;> simp [returnSave]

/-- An `AddCart` of a name the cart holds saves the cart with the quantity of the
first such entry increased in `int` arithmetic. -/
theorem AddCart_of_present (db : DatabaseInterface σ) (s : σ) (product : Product)
    (pre post : List CartItem) (item : CartItem) (quantity : Int)
    (hq : 0 < quantity)
    (hlookup : db.GetProductByName s item.ProductName = .ok product)
    (hread : db.GetCartItems s = .ok (pre ++ item :: post))
    (hpre : ∀ x ∈ pre, x.ProductName ≠ item.ProductName) :
    AddCart db s item.ProductName quantity =
      returnSave (db.SaveCartItems s
        (pre ++ { ProductName := item.ProductName, Price := item.Price,
                  Quantity := wrapInt (item.Quantity + quantity) } :: post)) := by
  unfold AddCart
  rw [if_neg (by omega), hlookup, hread]
  simp only
  rw [findIndex_first pre post item hpre rfl]
  simp only
  rw [addQuantity_first]

/-- A successful `AddCart` found the product. -/
theorem AddCart_lookup_of_success (db : DatabaseInterface σ) (s s' : σ) (productName : String)
    (quantity : Int) (hok : AddCart db s productName quantity = (none, s')) :
    ∃ product, db.GetProductByName s productName = .ok product := by
  unfold AddCart at hok
  split at hok
  · simp at hok
  · split at hok
    · simp at hok
    · exact ⟨_, by assumption⟩

/-- A `RemoveCart` of a name the cart holds saves the cart without the first
such entry. -/
theorem RemoveCart_of_present (db : DatabaseInterface σ) (s : σ)
    (pre post : List CartItem) (item : CartItem)
    (hread : db.GetCartItems s = .ok (pre ++ item :: post))
    (hpre : ∀ x ∈ pre, x.ProductName ≠ item.ProductName) :
    RemoveCart db s item.ProductName = returnSave (db.SaveCartItems s (pre ++ post)) := by
  unfold RemoveCart
  rw [hread]
  simp only
  rw [findIndex_first pre post item hpre rfl]
  simp only
  rw [remove_first]

theorem countEntries_of_absent {productName : String} {carts : List CartItem}
    (h : ¬ HasEntry productName carts) : countEntries productName carts = 0 := by
  unfold countEntries
  rw [List.countP_eq_zero]
  intro item hitem
  simp only [decide_eq_true_eq]
  intro heq
  exact h ⟨item, hitem, heq⟩

/-- Every cart with an entry of the given name splits around the first one. -/
theorem HasEntry.split {productName : String} {carts : List CartItem}
    (h : HasEntry productName carts) :
    ∃ pre item post, carts = pre ++ item :: post ∧ item.ProductName = productName
      ∧ ∀ x ∈ pre, x.ProductName ≠ productName := by
  induction carts with
  | nil => simp [HasEntry] at h
  | cons x xs ih =>
    by_cases hx : x.ProductName = productName
    · exact ⟨[], x, xs, rfl, hx, by simp⟩
    · have hxs : HasEntry productName xs := by
        obtain ⟨y, hy, hyn⟩ := h
        rcases List.mem_cons.mp hy with rfl | hy'
        · exact absurd hyn hx
        · exact ⟨y, hy', hyn⟩
      obtain ⟨pre, item, post, hsplit, hitem, hpre⟩ := ih hxs
      refine ⟨x :: pre, item, post, by simp [hsplit], hitem, ?_⟩
      intro y hy
      rcases List.mem_cons.mp hy with rfl | hy'
      · exact hx
      · exact hpre y hy'

end Cart

section CartClaims

variable {σ : Type}

/-- C4 (amended): for a product found in the catalog under its own name, a
cart with no entry of that name, and `q1 > 0`, `q2 > 0` whose sum fits in a
64-bit Go `int`, two successful `AddCart` calls with `q1` and then `q2` leave
the old cart followed by one item of that name with quantity `q1 + q2`; it is
the only entry of that name. -/
theorem AddCart_twice_in_range (db : DatabaseInterface σ) (s s1 s2 : σ) (product : Product)
    (carts : List CartItem) (q1 q2 : Int)
    (hq1 : 0 < q1) (hq2 : 0 < q2)
    (hrange : IsGoInt (q1 + q2))
    (hlookup : db.GetProductByName s product.Name = .ok product)
    (hread : db.GetCartItems s = .ok carts)
    (hnew : ¬ HasEntry product.Name carts)
    (hok1 : AddCart db s product.Name q1 = (none, s1))
    (hok2 : AddCart db s1 product.Name q2 = (none, s2))
    (hlaw : SaveThenGet db) :
    db.GetCartItems s2 =
        .ok (carts ++ [{ ProductName := product.Name, Price := product.Price,
                         Quantity := q1 + q2 }])
      ∧ countEntries product.Name
          (carts ++ [{ ProductName := product.Name, Price := product.Price,
                       Quantity := q1 + q2 }]) = 1 := by
  rw [AddCart_of_absent db s product.Name product carts q1 hq1 hlookup hread hnew,
    returnSave_eq_none] at hok1
  have hread1 := hlaw _ _ _ hok1
  obtain ⟨product', hlookup1⟩ := AddCart_lookup_of_success db s1 s2 product.Name q2 hok2
  have hpre : ∀ x ∈ carts, x.ProductName ≠ product.Name :=
    fun x hx heq => hnew ⟨x, hx, heq⟩
  have hstep := AddCart_of_present db s1 product' carts []
    { ProductName := product.Name, Price := product.Price, Quantity := q1 } q2 hq2
    hlookup1 hread1 hpre
  simp only at hstep
  rw [hstep, returnSave_eq_none, wrapInt_eq_self hrange] at hok2
  refine ⟨hlaw _ _ _ hok2, ?_⟩
  unfold countEntries
  rw [List.countP_append]
  have h0 := countEntries_of_absent hnew
  unfold countEntries at h0
  rw [h0]
  simp

/-- C5: for every `quantity ≤ 0`, product name, database and store state,
`AddCart` returns the error "invalid quantity" together with the store state
it was called in, whatever the database would have answered. -/
theorem AddCart_invalid_quantity (db : DatabaseInterface σ) (s : σ) (productName : String)
    (quantity : Int) (hq : quantity ≤ 0) :
    AddCart db s productName quantity = (some (Error.errorf "invalid quantity"), s) := by
  unfold AddCart
  rw [if_pos hq]

/-- C6: for every `quantity > 0` and product name whose lookup fails in the
database with `err`, `AddCart` returns that very error and the store state
it was called in. -/
theorem AddCart_unknown_product (db : DatabaseInterface σ) (s : σ) (productName : String)
    (quantity : Int) (err : DBError) (hq : 0 < quantity)
    (hlookup : db.GetProductByName s productName = .error err) :
    AddCart db s productName quantity = (some (Error.database err), s) := by
  unfold AddCart
  rw [if_neg (by omega), hlookup]

/-- C7: for `quantity > 0`, a product found in the catalog under its own name
and a cart with no entry of that name, a successful `AddCart` saves, and leaves
in the store, the old cart followed by one item with the product's name, the
catalog price and the given quantity. -/
theorem AddCart_appends (db : DatabaseInterface σ) (s s' : σ) (product : Product)
    (carts : List CartItem) (quantity : Int)
    (hq : 0 < quantity)
    (hlookup : db.GetProductByName s product.Name = .ok product)
    (hread : db.GetCartItems s = .ok carts)
    (hnew : ¬ HasEntry product.Name carts)
    (hok : AddCart db s product.Name quantity = (none, s'))
    (hlaw : SaveThenGet db) :
    db.SaveCartItems s
        (carts ++ [{ ProductName := product.Name, Price := product.Price,
                     Quantity := quantity }]) = (none, s')
      ∧ db.GetCartItems s' =
        .ok (carts ++ [{ ProductName := product.Name, Price := product.Price,
                         Quantity := quantity }]) := by
  rw [AddCart_of_absent db s product.Name product carts quantity hq hlookup hread hnew,
    returnSave_eq_none] at hok
  exact ⟨hok, hlaw _ _ _ hok⟩

/-- C8 (amended): for `quantity > 0` and a cart whose first entry named `p` is
`item` (with `p` found in the catalog, at whatever price), if
`item.Quantity + quantity` fits in a 64-bit Go `int`, a successful `AddCart`
leaves the same cart with that entry's quantity increased by exactly
`quantity`; its price, the length, the order and every other item are as
before. -/
theorem AddCart_increments_in_range (db : DatabaseInterface σ) (s s' : σ) (product : Product)
    (pre post : List CartItem) (item : CartItem) (quantity : Int)
    (hq : 0 < quantity)
    (hrange : IsGoInt (item.Quantity + quantity))
    (hlookup : db.GetProductByName s item.ProductName = .ok product)
    (hread : db.GetCartItems s = .ok (pre ++ item :: post))
    (hpre : ∀ x ∈ pre, x.ProductName ≠ item.ProductName)
    (hok : AddCart db s item.ProductName quantity = (none, s'))
    (hlaw : SaveThenGet db) :
    db.GetCartItems s' =
      .ok (pre ++ { ProductName := item.ProductName, Price := item.Price,
                    Quantity := item.Quantity + quantity } :: post) := by
  rw [AddCart_of_present db s product pre post item quantity hq hlookup hread hpre,
    returnSave_eq_none, wrapInt_eq_self hrange] at hok
  exact hlaw _ _ _ hok

/-- C9: for a cart whose first entry named `productName` is `item`, a
successful `RemoveCart` saves, and leaves in the store, the old cart without
that one entry: the items before it and after it are unchanged and keep their
order. -/
theorem RemoveCart_removes_first (db : DatabaseInterface σ) (s s' : σ)
    (pre post : List CartItem) (item : CartItem)
    (hread : db.GetCartItems s = .ok (pre ++ item :: post))
    (hpre : ∀ x ∈ pre, x.ProductName ≠ item.ProductName)
    (hok : RemoveCart db s item.ProductName = (none, s'))
    (hlaw : SaveThenGet db) :
    db.SaveCartItems s (pre ++ post) = (none, s')
      ∧ db.GetCartItems s' = .ok (pre ++ post) := by
  rw [RemoveCart_of_present db s pre post item hread hpre, returnSave_eq_none] at hok
  exact ⟨hok, hlaw _ _ _ hok⟩

/-- C10: when the cart read succeeds, `RemoveCart` returns the error
"product not found" if and only if no cart entry has the given name, and in
that case it returns the store state it was called in. -/
theorem RemoveCart_not_found_iff (db : DatabaseInterface σ) (s : σ) (carts : List CartItem)
    (productName : String)
    (hread : db.GetCartItems s = .ok carts) :
    ((RemoveCart db s productName).1 = some (Error.errorf "product not found")
        ↔ ¬ HasEntry productName carts)
      ∧ (¬ HasEntry productName carts →
        RemoveCart db s productName = (some (Error.errorf "product not found"), s)) := by
  have habsent : ¬ HasEntry productName carts →
      RemoveCart db s productName = (some (Error.errorf "product not found"), s) := by
    intro h
    unfold RemoveCart
    rw [hread]
    simp only
    rw [findIndex_eq_none.mpr h]
  refine ⟨⟨?_, fun h => by rw [habsent h]⟩, habsent⟩
  intro herr hentry
  obtain ⟨pre, item, post, hsplit, hitem, hpre⟩ := hentry.split
  subst hsplit
  subst hitem
  rw [RemoveCart_of_present db s pre post item hread hpre] at herr
  exact returnSave_error _ _ herr

end CartClaims

/-- Adding three and then two apples to an empty cart. -/
theorem AddCart_twice_in_range_witness :
    memDB.GetCartItems ⟨appleCatalog, appleCart⟩ =
        .ok ([] ++ [{ ProductName := "Apple", Price := 10, Quantity := 3 + 2 }])
      ∧ countEntries "Apple" ([] ++ [{ ProductName := "Apple", Price := 10, Quantity := 3 + 2 }])
          = 1 :=
  AddCart_twice_in_range memDB ⟨appleCatalog, []⟩ ⟨appleCatalog, [⟨"Apple", 10, 3⟩]⟩
    ⟨appleCatalog, appleCart⟩ ⟨"Apple", 10⟩ [] 3 2 (by decide) (by decide) (by decide) rfl rfl
    (by decide) (by decide) (by decide) memDB_saveThenGet

/-- Adding the largest `int` quantity and then one more: the single entry ends
with the smallest `int` as quantity, not with the sum. -/
theorem AddCart_twice_counterexample :
    memDB.GetProductByName ⟨unitCatalog, []⟩ "A" = .ok ⟨"A", 1⟩
      ∧ AddCart memDB ⟨unitCatalog, []⟩ "A" 9223372036854775807
          = (none, ⟨unitCatalog, fullCart⟩)
      ∧ AddCart memDB ⟨unitCatalog, fullCart⟩ "A" 1 = (none, ⟨unitCatalog, wrappedCart⟩)
      ∧ (ShowCart memDB ⟨unitCatalog, wrappedCart⟩).1
          = ([⟨"A", 1, -9223372036854775808⟩], none)
      ∧ (ShowCart memDB ⟨unitCatalog, wrappedCart⟩).1
          ≠ ([⟨"A", 1, 9223372036854775807 + 1⟩], none) := by
  refine ⟨rfl, by decide, by decide, by decide, by decide⟩

/-- Adding zero apples. -/
theorem AddCart_invalid_quantity_witness :
    AddCart memDB ⟨appleCatalog, appleCart⟩ "Apple" 0
      = (some (Error.errorf "invalid quantity"), ⟨appleCatalog, appleCart⟩) :=
  AddCart_invalid_quantity memDB ⟨appleCatalog, appleCart⟩ "Apple" 0 (by decide)

/-- Adding a pear when the catalog only has apples. -/
theorem AddCart_unknown_product_witness :
    AddCart memDB ⟨appleCatalog, appleCart⟩ "Pear" 1
      = (some (Error.database ⟨"product not found"⟩), ⟨appleCatalog, appleCart⟩) :=
  AddCart_unknown_product memDB ⟨appleCatalog, appleCart⟩ "Pear" 1 ⟨"product not found"⟩
    (by decide) rfl

/-- Adding three apples to a cart that holds a pear. -/
theorem AddCart_appends_witness :
    memDB.SaveCartItems ⟨appleCatalog, [⟨"Pear", 4, 1⟩]⟩
        ([⟨"Pear", 4, 1⟩] ++ [{ ProductName := "Apple", Price := 10, Quantity := 3 }])
        = (none, ⟨appleCatalog, [⟨"Pear", 4, 1⟩, ⟨"Apple", 10, 3⟩]⟩)
      ∧ memDB.GetCartItems ⟨appleCatalog, [⟨"Pear", 4, 1⟩, ⟨"Apple", 10, 3⟩]⟩
        = .ok ([⟨"Pear", 4, 1⟩] ++ [{ ProductName := "Apple", Price := 10, Quantity := 3 }]) :=
  AddCart_appends memDB ⟨appleCatalog, [⟨"Pear", 4, 1⟩]⟩
    ⟨appleCatalog, [⟨"Pear", 4, 1⟩, ⟨"Apple", 10, 3⟩]⟩ ⟨"Apple", 10⟩ [⟨"Pear", 4, 1⟩] 3
    (by decide) rfl rfl (by decide) (by decide) memDB_saveThenGet

/-- Adding two apples to a cart holding three at a stored price of 7 while
the catalog price is 10. -/
theorem AddCart_increments_in_range_witness :
    memDB.GetCartItems ⟨appleCatalog, [⟨"Pear", 4, 1⟩, ⟨"Apple", 7, 5⟩, ⟨"Fig", 2, 6⟩]⟩
      = .ok ([⟨"Pear", 4, 1⟩] ++
          { ProductName := "Apple", Price := 7, Quantity := 3 + 2 } :: [⟨"Fig", 2, 6⟩]) :=
  AddCart_increments_in_range memDB ⟨appleCatalog, mixedCart⟩
    ⟨appleCatalog, [⟨"Pear", 4, 1⟩, ⟨"Apple", 7, 5⟩, ⟨"Fig", 2, 6⟩]⟩ ⟨"Apple", 10⟩
    [⟨"Pear", 4, 1⟩] [⟨"Fig", 2, 6⟩] ⟨"Apple", 7, 3⟩ 2
    (by decide) (by decide) rfl rfl (by decide) (by decide) memDB_saveThenGet

/-- Adding one to an entry that holds the largest `int` quantity: the stored
quantity becomes the smallest `int`. -/
theorem AddCart_increments_counterexample :
    memDB.GetProductByName ⟨unitCatalog, fullCart⟩ "A" = .ok ⟨"A", 1⟩
      ∧ memDB.GetCartItems ⟨unitCatalog, fullCart⟩ = .ok [⟨"A", 1, 9223372036854775807⟩]
      ∧ AddCart memDB ⟨unitCatalog, fullCart⟩ "A" 1
          = (none, ⟨unitCatalog, [⟨"A", 1, -9223372036854775808⟩]⟩)
      ∧ (ShowCart memDB ⟨unitCatalog, [⟨"A", 1, -9223372036854775808⟩]⟩).1
          ≠ ([⟨"A", 1, 9223372036854775807 + 1⟩], none) := by
  refine ⟨rfl, rfl, by decide, by decide⟩

/-- Removing the apple line from between a pear line and a fig line. -/
theorem RemoveCart_removes_first_witness :
    memDB.SaveCartItems ⟨appleCatalog, mixedCart⟩ ([⟨"Pear", 4, 1⟩] ++ [⟨"Fig", 2, 6⟩])
        = (none, ⟨appleCatalog, [⟨"Pear", 4, 1⟩, ⟨"Fig", 2, 6⟩]⟩)
      ∧ memDB.GetCartItems ⟨appleCatalog, [⟨"Pear", 4, 1⟩, ⟨"Fig", 2, 6⟩]⟩
        = .ok ([⟨"Pear", 4, 1⟩] ++ [⟨"Fig", 2, 6⟩]) :=
  RemoveCart_removes_first memDB ⟨appleCatalog, mixedCart⟩
    ⟨appleCatalog, [⟨"Pear", 4, 1⟩, ⟨"Fig", 2, 6⟩]⟩ [⟨"Pear", 4, 1⟩] [⟨"Fig", 2, 6⟩]
    ⟨"Apple", 7, 3⟩ rfl (by decide) (by decide) memDB_saveThenGet

/-- Removing a pear from a cart of apples. -/
theorem RemoveCart_not_found_iff_witness :
    ((RemoveCart memDB ⟨appleCatalog, appleCart⟩ "Pear").1
          = some (Error.errorf "product not found")
        ↔ ¬ HasEntry "Pear" appleCart)
      ∧ (¬ HasEntry "Pear" appleCart →
        RemoveCart memDB ⟨appleCatalog, appleCart⟩ "Pear"
          = (some (Error.errorf "product not found"), ⟨appleCatalog, appleCart⟩)) :=
  RemoveCart_not_found_iff memDB ⟨appleCatalog, appleCart⟩ appleCart "Pear" rfl

/-! ## Resetting and showing -/

section Reset

variable {σ : Type}

theorem ResetCart_eq_returnSave (db : DatabaseInterface σ) (s : σ) :
    ResetCart db s = returnSave (db.SaveCartItems s []) := by
  unfold ResetCart
  rcases db.SaveCartItems s [] with ⟨_ | err, t⟩ <;> simp [returnSave]

theorem returnSave_snd (r : Option DBError × σ) : (returnSave r).2 = r.2 := rfl

/-- C11: a successful `ResetCart` followed by `ShowCart` returns the empty
cart; a second successful `ResetCart` leaves the same cart and the same catalog
as the first; and `ResetCart`, successful or not, leaves the catalog as it
was. The store is taken to keep its contract: a successful save is what the
next read returns, and a save does not touch the catalog. -/
theorem ResetCart_idempotent (db : DatabaseInterface σ) (s s1 s2 : σ)
    (hlaw : SaveThenGet db) (hcat : SaveKeepsCatalog db)
    (h1 : ResetCart db s = (none, s1))
    (h2 : ResetCart db s1 = (none, s2)) :
    ShowCart db s1 = (([], none), s1)
      ∧ (db.GetCartItems s2 = db.GetCartItems s1
          ∧ db.GetProductData s2 = db.GetProductData s1
          ∧ ∀ name, db.GetProductByName s2 name = db.GetProductByName s1 name)
      ∧ (db.GetProductData (ResetCart db s).2 = db.GetProductData s
          ∧ ∀ name, db.GetProductByName (ResetCart db s).2 name = db.GetProductByName s name) := by
  have hkeep := hcat s (ResetCart db s).2 [] (db.SaveCartItems s []).1
    (by rw [ResetCart_eq_returnSave, returnSave_snd])
  rw [ResetCart_eq_returnSave, returnSave_eq_none] at h1 h2
  have hget1 := hlaw _ _ _ h1
  have hget2 := hlaw _ _ _ h2
  refine ⟨?_, ⟨?_, (hcat _ _ _ _ h2).1, (hcat _ _ _ _ h2).2⟩, hkeep⟩
  · unfold ShowCart
    rw [hget1]
  · rw [hget1, hget2]

/-- C17: `ShowCart` returns the items the store holds, in stored order, and no
error when the cart read succeeds; it returns no items and the error of the
store when the cart read fails; and in every case the store state after the
call is the state before it. -/
theorem ShowCart_pure_read (db : DatabaseInterface σ) (s : σ) :
    (∀ carts, db.GetCartItems s = .ok carts → ShowCart db s = ((carts, none), s))
      ∧ (∀ err, db.GetCartItems s = .error err →
          ShowCart db s = (([], some (Error.database err)), s))
      ∧ (ShowCart db s).2 = s := by
  unfold ShowCart
  refine ⟨?_, ?_, ?_⟩
  · intro carts h
    rw [h]
  · intro err h
    rw [h]
  · rcases db.GetCartItems s with err | carts <;> rfl

end Reset

/-! ## Failures of the store -/

section Failures

variable {σ : Type}

/-- C14: when a read of the store that an operation performs returns an
error, the operation returns exactly that error and the store state it was
called in, so nothing has been saved. `AddCart` reads the product once the
quantity is validated and the cart once the product is found; `RemoveCart` and
`Pay` read the cart first. -/
theorem read_error_returned (db : DatabaseInterface σ) (s : σ) (productName : String)
    (quantity money : Int) (err : DBError) :
    (0 < quantity → db.GetProductByName s productName = .error err →
        AddCart db s productName quantity = (some (Error.database err), s))
      ∧ (0 < quantity → (∃ product, db.GetProductByName s productName = .ok product) →
          db.GetCartItems s = .error err →
          AddCart db s productName quantity = (some (Error.database err), s))
      ∧ (db.GetCartItems s = .error err →
          RemoveCart db s productName = (some (Error.database err), s))
      ∧ (db.GetCartItems s = .error err →
          Pay db s money = ((PaymentInformation.zero, some (Error.database err)), s)) := by
  refine ⟨?_, ?_, ?_, ?_⟩
  · intro hq hlookup
    unfold AddCart
    rw [if_neg (by omega), hlookup]
  · rintro hq ⟨product, hlookup⟩ hread
    unfold AddCart
    rw [if_neg (by omega), hlookup, hread]
  · intro hread
    unfold RemoveCart
    rw [hread]
  · intro hread
    unfold Pay
    rw [hread]

/-- C15: when the cart read succeeds, `money` is at least the total `Pay`
computes for the cart (its exact total reduced to the `int` range), so that
the reset step is reached, and the save of the reset fails with `err`, `Pay`
returns exactly `err` as its error, with the zero payment information. -/
theorem Pay_reset_error (db : DatabaseInterface σ) (s s' : σ) (carts : List CartItem)
    (money : Int) (err : DBError)
    (hread : db.GetCartItems s = .ok carts)
    (hmoney : wrapInt (cartTotal carts) ≤ money)
    (hsave : db.SaveCartItems s [] = (some err, s')) :
    Pay db s money = ((PaymentInformation.zero, some (Error.database err)), s') := by
  rw [Pay_of_read db s carts money hread, if_neg (by omega), ResetCart_eq_returnSave, hsave]
  rfl

/-- C18: whenever `Pay` returns an error, the payment information it returns
is the zero value: no products and `0` for total, money paid and change. -/
theorem Pay_error_zero (db : DatabaseInterface σ) (s : σ) (money : Int)
    (herr : (Pay db s money).1.2 ≠ none) :
    (Pay db s money).1.1 = PaymentInformation.zero
      ∧ (Pay db s money).1.1.ProductList = []
      ∧ (Pay db s money).1.1.TotalPrice = 0
      ∧ (Pay db s money).1.1.MoneyPaid = 0
      ∧ (Pay db s money).1.1.Change = 0 := by
  have hzero : (Pay db s money).1.1 = PaymentInformation.zero := by
    rcases hget : db.GetCartItems s with e | carts
    · unfold Pay
      rw [hget]
    · rw [Pay_of_read db s carts money hget] at herr ⊢
      by_cases hlt : money < wrapInt (cartTotal carts)
      · rw [if_pos hlt]
      · rw [if_neg hlt] at herr ⊢
        rcases hr : ResetCart db s with ⟨_ | e, t⟩
        · rw [hr] at herr
          simp at herr
        · rfl
  rw [hzero]
  exact ⟨rfl, rfl, rfl, rfl, rfl⟩

/-- C19: for `quantity > 0`, a product found in the catalog under its own name
and a cart with no entry of that name, a successful `AddCart` followed by a
successful `RemoveCart` of the same name leaves exactly the original cart. -/
theorem AddCart_RemoveCart_roundtrip (db : DatabaseInterface σ) (s s1 s2 : σ)
    (product : Product) (carts : List CartItem) (quantity : Int)
    (hq : 0 < quantity)
    (hlookup : db.GetProductByName s product.Name = .ok product)
    (hread : db.GetCartItems s = .ok carts)
    (hnew : ¬ HasEntry product.Name carts)
    (hadd : AddCart db s product.Name quantity = (none, s1))
    (hremove : RemoveCart db s1 product.Name = (none, s2))
    (hlaw : SaveThenGet db) :
    db.GetCartItems s2 = .ok carts := by
  rw [AddCart_of_absent db s product.Name product carts quantity hq hlookup hread hnew,
    returnSave_eq_none] at hadd
  have hread1 := hlaw _ _ _ hadd
  have hpre : ∀ x ∈ carts, x.ProductName ≠ product.Name :=
    fun x hx heq => hnew ⟨x, hx, heq⟩
  have hstep := RemoveCart_of_present db s1 carts []
    { ProductName := product.Name, Price := product.Price, Quantity := quantity } hread1 hpre
  simp only at hstep
  rw [hstep, returnSave_eq_none, List.append_nil] at hremove
  exact hlaw _ _ _ hremove

end Failures

/-! ## Cart invariants -/

section Invariants

variable {σ : Type}

/-- The state `AddCart` leaves is the state it was called in, or the state
left by the save of the cart with a new item appended, or the state left by the
save of the cart with the quantity of the first entry of that name increased. -/
theorem AddCart_after (db : DatabaseInterface σ) (s : σ) (productName : String)
    (quantity : Int) :
    (AddCart db s productName quantity).2 = s
      ∨ ∃ product carts, 0 < quantity ∧ db.GetProductByName s productName = .ok product
          ∧ db.GetCartItems s = .ok carts
          ∧ ((¬ HasEntry productName carts
                ∧ (AddCart db s productName quantity).2 =
                    (db.SaveCartItems s
                      (carts ++ [{ ProductName := product.Name, Price := product.Price,
                                   Quantity := quantity }])).2)
              ∨ ∃ pre item post, carts = pre ++ item :: post
                  ∧ (∀ x ∈ pre, x.ProductName ≠ productName)
                  ∧ item.ProductName = productName
                  ∧ (AddCart db s productName quantity).2 =
                      (db.SaveCartItems s
                        (pre ++ { ProductName := item.ProductName, Price := item.Price,
                                  Quantity := wrapInt (item.Quantity + quantity) } :: post)).2) := by
  by_cases hq : quantity ≤ 0
  · left
    unfold AddCart
    rw [if_pos hq]
  · have hpos : 0 < quantity := by omega
    rcases hlookup : db.GetProductByName s productName with e | product
    · left
      unfold AddCart
      rw [if_neg hq, hlookup]
    · rcases hread : db.GetCartItems s with e | carts
      · left
        unfold AddCart
        rw [if_neg hq, hlookup, hread]
      · right
        refine ⟨product, carts, hpos, rfl, rfl, ?_⟩
        by_cases hentry : HasEntry productName carts
        · right
          obtain ⟨pre, item, post, hsplit, hitem, hpre⟩ := hentry.split
          subst hsplit
          subst hitem
          refine ⟨pre, item, post, rfl, hpre, rfl, ?_⟩
          rw [AddCart_of_present db s product pre post item quantity hpos hlookup hread hpre]
          rfl
        · left
          refine ⟨hentry, ?_⟩
          rw [AddCart_of_absent db s productName product carts quantity hpos hlookup hread
            hentry]
          rfl

/-- The state `RemoveCart` leaves is the state it was called in or the state
left by the save of the cart without the first entry of that name. -/
theorem RemoveCart_after (db : DatabaseInterface σ) (s : σ) (productName : String) :
    (RemoveCart db s productName).2 = s
      ∨ ∃ pre item post, db.GetCartItems s = .ok (pre ++ item :: post)
          ∧ (RemoveCart db s productName).2 = (db.SaveCartItems s (pre ++ post)).2 := by
  rcases hread : db.GetCartItems s with e | carts
  · left
    unfold RemoveCart
    rw [hread]
  · by_cases hentry : HasEntry productName carts
    · right
      obtain ⟨pre, item, post, hsplit, hitem, hpre⟩ := hentry.split
      subst hsplit
      subst hitem
      refine ⟨pre, item, post, rfl, ?_⟩
      rw [RemoveCart_of_present db s pre post item hread hpre]
      rfl
    · left
      unfold RemoveCart
      rw [hread]
      simp only
      rw [findIndex_eq_none.mpr hentry]

/-- The state `Pay` leaves is the state it was called in or the state left by
the save of the empty cart. -/
theorem Pay_after (db : DatabaseInterface σ) (s : σ) (money : Int) :
    (Pay db s money).2 = s ∨ (Pay db s money).2 = (db.SaveCartItems s []).2 := by
  rcases hread : db.GetCartItems s with e | carts
  · left
    unfold Pay
    rw [hread]
  · rw [Pay_of_read db s carts money hread]
    by_cases hlt : money < wrapInt (cartTotal carts)
    · left
      rw [if_pos hlt]
    · right
      rw [if_neg hlt, ResetCart_eq_returnSave]
      rcases db.SaveCartItems s [] with ⟨_ | e, t⟩ <;> rfl

/-- A save of a cart that satisfies `P`, into a state whose cart satisfies `P`,
leaves a cart that satisfies `P` when saves are atomic. -/
theorem CartSatisfies_save {P : List CartItem → Prop} (db : DatabaseInterface σ) (s : σ)
    (items : List CartItem) (hatomic : SaveAtomic db) (hinv : CartSatisfies P db s)
    (hitems : P items) : CartSatisfies P db (db.SaveCartItems s items).2 := by
  intro carts hcarts
  rcases hatomic s (db.SaveCartItems s items).2 items (db.SaveCartItems s items).1 rfl
    with h | h
  · rw [h] at hcarts
    cases hcarts
    exact hitems
  · rw [h] at hcarts
    exact hinv carts hcarts

theorem NoDuplicateNames_nil : NoDuplicateNames [] := by
  simp [NoDuplicateNames]

theorem NoDuplicateNames_append_new {carts : List CartItem} {item : CartItem}
    (h : NoDuplicateNames carts) (hnew : ¬ HasEntry item.ProductName carts) :
    NoDuplicateNames (carts ++ [item]) := by
  unfold NoDuplicateNames at h ⊢
  rw [List.map_append, List.nodup_append]
  refine ⟨h, by simp, ?_⟩
  intro name hname hname'
  simp only [List.map_cons, List.map_nil, List.mem_singleton] at hname'
  subst hname'
  obtain ⟨x, hx, hxn⟩ := List.mem_map.mp hname
  exact hnew ⟨x, hx, hxn⟩

theorem NoDuplicateNames_requantify {pre post : List CartItem} {item : CartItem}
    (quantity : Int) (h : NoDuplicateNames (pre ++ item :: post)) :
    NoDuplicateNames
      (pre ++ { ProductName := item.ProductName, Price := item.Price,
                Quantity := quantity } :: post) := by
  unfold NoDuplicateNames at h ⊢
  simpa using h

theorem NoDuplicateNames_remove {pre post : List CartItem} {item : CartItem}
    (h : NoDuplicateNames (pre ++ item :: post)) : NoDuplicateNames (pre ++ post) := by
  unfold NoDuplicateNames at h ⊢
  refine List.Nodup.sublist ?_ h
  exact List.Sublist.map _ (List.Sublist.append (List.Sublist.refl pre)
    (List.sublist_cons_self item post))

theorem PositiveQuantities_nil : PositiveQuantities [] := by
  simp [PositiveQuantities]

theorem PositiveQuantities_remove {pre post : List CartItem} {item : CartItem}
    (h : PositiveQuantities (pre ++ item :: post)) : PositiveQuantities (pre ++ post) := by
  intro x hx
  apply h x
  rcases List.mem_append.mp hx with hp | hp
  · exact List.mem_append_left _ hp
  · exact List.mem_append_right _ (List.mem_cons_of_mem _ hp)

theorem PositiveQuantities_append_new {carts : List CartItem} {item : CartItem}
    (h : PositiveQuantities carts) (hq : 0 < item.Quantity) :
    PositiveQuantities (carts ++ [item]) := by
  intro x hx
  rcases List.mem_append.mp hx with hp | hp
  · exact h x hp
  · rw [List.mem_singleton] at hp
    subst hp
    exact hq

theorem PositiveQuantities_requantify {pre post : List CartItem} {item : CartItem}
    (quantity : Int) (h : PositiveQuantities (pre ++ item :: post)) (hq : 0 < quantity) :
    PositiveQuantities
      (pre ++ { ProductName := item.ProductName, Price := item.Price,
                Quantity := quantity } :: post) := by
  intro x hx
  rcases List.mem_append.mp hx with hp | hp
  · exact h x (List.mem_append_left _ hp)
  · rcases List.mem_cons.mp hp with hp | hp
    · subst hp
      exact hq
    · exact h x (List.mem_append_right _ (List.mem_cons_of_mem _ hp))

/-- C12: when saves of the store are atomic and a product the store finds
under a name carries that name, every `AddCart`, `RemoveCart`, `ShowCart`,
`ResetCart` and `Pay` call, successful or not, made in a state whose cart has
no two entries of the same product name leaves a state whose cart has no two
entries of the same product name. -/
theorem NoDuplicateNames_invariant (db : DatabaseInterface σ) (s : σ) (c : Call)
    (hatomic : SaveAtomic db)
    (hname : ∀ name product, db.GetProductByName s name = .ok product → product.Name = name)
    (hinv : CartSatisfies NoDuplicateNames db s) :
    CartSatisfies NoDuplicateNames db (c.after db s) := by
  cases c with
  | addCart productName quantity =>
    show CartSatisfies NoDuplicateNames db (AddCart db s productName quantity).2
    rcases AddCart_after db s productName quantity with h | ⟨product, carts, _, hlookup, hread, h⟩
    · rw [h]
      exact hinv
    · have hcarts := hinv carts hread
      rcases h with ⟨hnew, h⟩ | ⟨pre, item, post, hsplit, _, _, h⟩
      · rw [h]
        apply CartSatisfies_save db s _ hatomic hinv
        apply NoDuplicateNames_append_new hcarts
        simp only
        rw [hname productName product hlookup]
        exact hnew
      · rw [h]
        subst hsplit
        exact CartSatisfies_save db s _ hatomic hinv (NoDuplicateNames_requantify _ hcarts)
  | removeCart productName =>
    show CartSatisfies NoDuplicateNames db (RemoveCart db s productName).2
    rcases RemoveCart_after db s productName with h | ⟨pre, item, post, hread, h⟩
    · rw [h]
      exact hinv
    · rw [h]
      exact CartSatisfies_save db s _ hatomic hinv (NoDuplicateNames_remove (hinv _ hread))
  | showCart =>
    show CartSatisfies NoDuplicateNames db (ShowCart db s).2
    unfold ShowCart
    rcases db.GetCartItems s with e | carts <;> exact hinv
  | resetCart =>
    show CartSatisfies NoDuplicateNames db (ResetCart db s).2
    rw [ResetCart_eq_returnSave, returnSave_snd]
    exact CartSatisfies_save db s _ hatomic hinv NoDuplicateNames_nil
  | pay money =>
    show CartSatisfies NoDuplicateNames db (Pay db s money).2
    rcases Pay_after db s money with h | h
    · rw [h]
      exact hinv
    · rw [h]
      exact CartSatisfies_save db s _ hatomic hinv NoDuplicateNames_nil

/-- C13 (amended): when saves of the store are atomic, every `AddCart`,
`RemoveCart`, `ShowCart`, `ResetCart` and `Pay` call, successful or not, made
in a state whose cart entries all have a positive quantity leaves a state
whose cart entries all have a positive quantity, provided the quantity
addition of an `AddCart` call stays within the 64-bit `int` range. -/
theorem PositiveQuantities_invariant_in_range (db : DatabaseInterface σ) (s : σ) (c : Call)
    (hatomic : SaveAtomic db)
    (hrange : c.NoOverflow db s)
    (hinv : CartSatisfies PositiveQuantities db s) :
    CartSatisfies PositiveQuantities db (c.after db s) := by
  cases c with
  | addCart productName quantity =>
    show CartSatisfies PositiveQuantities db (AddCart db s productName quantity).2
    rcases AddCart_after db s productName quantity with h | ⟨product, carts, hq, _, hread, h⟩
    · rw [h]
      exact hinv
    · have hcarts := hinv carts hread
      rcases h with ⟨_, h⟩ | ⟨pre, item, post, hsplit, _, hitem, h⟩
      · rw [h]
        exact CartSatisfies_save db s _ hatomic hinv (PositiveQuantities_append_new hcarts hq)
      · rw [h]
        subst hsplit
        have hmem : item ∈ pre ++ item :: post :=
          List.mem_append_right _ (List.mem_cons_self _ _)
        have hroom : item.Quantity + quantity < 2 ^ 63 := hrange _ hread item hmem hitem
        have hpos : 0 < item.Quantity := hcarts item hmem
        have hfit : IsGoInt (item.Quantity + quantity) := by
          unfold IsGoInt
          omega
        apply CartSatisfies_save db s _ hatomic hinv
        apply PositiveQuantities_requantify _ hcarts
        rw [wrapInt_eq_self hfit]
        omega
  | removeCart productName =>
    show CartSatisfies PositiveQuantities db (RemoveCart db s productName).2
    rcases RemoveCart_after db s productName with h | ⟨pre, item, post, hread, h⟩
    · rw [h]
      exact hinv
    · rw [h]
      exact CartSatisfies_save db s _ hatomic hinv (PositiveQuantities_remove (hinv _ hread))
  | showCart =>
    show CartSatisfies PositiveQuantities db (ShowCart db s).2
    unfold ShowCart
    rcases db.GetCartItems s with e | carts <;> exact hinv
  | resetCart =>
    show CartSatisfies PositiveQuantities db (ResetCart db s).2
    rw [ResetCart_eq_returnSave, returnSave_snd]
    exact CartSatisfies_save db s _ hatomic hinv PositiveQuantities_nil
  | pay money =>
    show CartSatisfies PositiveQuantities db (Pay db s money).2
    rcases Pay_after db s money with h | h
    · rw [h]
      exact hinv
    · rw [h]
      exact CartSatisfies_save db s _ hatomic hinv PositiveQuantities_nil

end Invariants

/-! ## The in-memory store keeps the rest of its contract -/

theorem memDB_saveAtomic : SaveAtomic memDB := by
  intro s s' items err h
  simp only [memDB, Prod.mk.injEq] at h
  obtain ⟨_, h⟩ := h
  subst h
  left
  rfl

theorem memDB_saveKeepsCatalog : SaveKeepsCatalog memDB := by
  intro s s' items err h
  simp only [memDB, Prod.mk.injEq] at h
  obtain ⟨_, h⟩ := h
  subst h
  exact ⟨rfl, fun _ => rfl⟩

theorem memDB_lookup_name (s : MemStore) (name : String) (product : Product)
    (h : memDB.GetProductByName s name = .ok product) : product.Name = name := by
  simp only [memDB] at h
  split at h
  · rename_i p hfind
    cases h
    simpa using List.find?_some hfind
  · cases h

/-! ## A scenario and the arithmetic of payment -/

section Scenario

variable {σ : Type}

theorem cartTotal_nonneg {carts : List CartItem} (h : CartWellFormed carts) :
    0 ≤ cartTotal carts := by
  induction carts with
  | nil => simp [cartTotal]
  | cons item rest ih =>
    have hitem := h item (List.mem_cons_self _ _)
    have hrest : CartWellFormed rest := fun x hx => h x (List.mem_cons_of_mem _ hx)
    have hmul : 0 ≤ item.Price * item.Quantity := Int.mul_nonneg hitem.1 (by omega)
    have := ih hrest
    simp only [cartTotal]
    omega

/-- C16: in a store that keeps what is saved, starting from a state where
"Apple" is found at price 10 and the cart is empty, with every store
operation succeeding: `AddCart "Apple" 3` leaves the cart `[{Apple, 10, 3}]`;
`AddCart "Apple" 2` leaves `[{Apple, 10, 5}]`; `Pay 40` fails with
"money is not enough" and leaves the store as it is; `Pay 60` then succeeds
with total 50, money paid 60 and change 10, and the cart is empty afterwards. -/
theorem apple_scenario (db : DatabaseInterface σ) (s0 s1 s2 s3 : σ)
    (hlaw : SaveThenGet db)
    (hlookup : db.GetProductByName s0 "Apple" = .ok { Name := "Apple", Price := 10 })
    (hempty : db.GetCartItems s0 = .ok [])
    (hadd1 : AddCart db s0 "Apple" 3 = (none, s1))
    (hadd2 : AddCart db s1 "Apple" 2 = (none, s2))
    (hsave : db.SaveCartItems s2 [] = (none, s3)) :
    db.GetCartItems s1 = .ok [{ ProductName := "Apple", Price := 10, Quantity := 3 }]
      ∧ db.GetCartItems s2 = .ok [{ ProductName := "Apple", Price := 10, Quantity := 5 }]
      ∧ Pay db s2 40 =
          ((PaymentInformation.zero, some (Error.errorf "money is not enough")), s2)
      ∧ Pay db s2 60 =
          (({ ProductList := [{ ProductName := "Apple", Price := 10, Quantity := 5 }],
              TotalPrice := 50, MoneyPaid := 60, Change := 10 }, none), s3)
      ∧ db.GetCartItems s3 = .ok [] := by
  have hnew : ¬ HasEntry "Apple" [] := by simp [HasEntry]
  rw [AddCart_of_absent db s0 "Apple" _ [] 3 (by decide) hlookup hempty hnew,
    returnSave_eq_none] at hadd1
  have hread1 : db.GetCartItems s1
      = .ok ([] ++ { ProductName := "Apple", Price := 10, Quantity := 3 } :: []) :=
    hlaw _ _ _ hadd1
  obtain ⟨product, hlookup1⟩ := AddCart_lookup_of_success db s1 s2 "Apple" 2 hadd2
  have hstep := AddCart_of_present db s1 product [] []
    { ProductName := "Apple", Price := 10, Quantity := 3 } 2 (by decide) hlookup1 hread1
    (by simp)
  have hfive : wrapInt ((3 : Int) + 2) = 5 := by decide
  simp only [hfive, List.nil_append] at hstep
  rw [hstep, returnSave_eq_none] at hadd2
  have hread2 := hlaw _ _ _ hadd2
  have htotal : wrapInt (cartTotal [{ ProductName := "Apple", Price := 10, Quantity := 5 }])
      = 50 := by decide
  have hchange : wrapInt ((60 : Int) - 50) = 10 := by decide
  refine ⟨hread1, hread2, ?_, ?_, hlaw _ _ _ hsave⟩
  · rw [Pay_of_read db s2 _ 40 hread2, htotal, if_pos (by decide)]
  · rw [Pay_of_read db s2 _ 60 hread2, htotal, if_neg (by decide),
      ResetCart_of_save db s2 s3 hsave, hchange]

/-- C20 (amended): for a cart, read successfully, in which every item has
`Price ≥ 0` and `Quantity > 0`, with integers treated as unbounded (the exact
total and `money` fit in a 64-bit `int`, so nothing wraps): whenever `Pay`
succeeds, `TotalPrice ≥ 0`, `Change ≥ 0` and `TotalPrice + Change = MoneyPaid`;
and on the empty cart, when the save of the reset succeeds, `Pay` succeeds
exactly when `money ≥ 0`, with `TotalPrice = 0` and `Change = money`. -/
theorem Pay_bounds_in_range (db : DatabaseInterface σ) (s : σ) (carts : List CartItem)
    (money : Int)
    (hread : db.GetCartItems s = .ok carts)
    (hwf : CartWellFormed carts)
    (htotal : IsGoInt (cartTotal carts))
    (hmoney : IsGoInt money) :
    ((Pay db s money).1.2 = none →
        0 ≤ (Pay db s money).1.1.TotalPrice
          ∧ 0 ≤ (Pay db s money).1.1.Change
          ∧ (Pay db s money).1.1.TotalPrice + (Pay db s money).1.1.Change
              = (Pay db s money).1.1.MoneyPaid)
      ∧ (carts = [] → ∀ s', db.SaveCartItems s [] = (none, s') →
          ((Pay db s money).1.2 = none ↔ 0 ≤ money)
            ∧ (0 ≤ money →
                Pay db s money =
                  (({ ProductList := [], TotalPrice := 0, MoneyPaid := money,
                      Change := money }, none), s'))) := by
  have hnonneg := cartTotal_nonneg hwf
  rw [Pay_of_read db s carts money hread, wrapInt_eq_self htotal]
  constructor
  · intro hok
    by_cases hlt : money < cartTotal carts
    · rw [if_pos hlt] at hok
      simp at hok
    · rw [if_neg hlt] at hok ⊢
      have hfit : IsGoInt (money - cartTotal carts) := by
        unfold IsGoInt at hmoney ⊢
        omega
      rw [wrapInt_eq_self hfit]
      rcases hreset : ResetCart db s with ⟨_ | err, t⟩
      · simp only
        omega
      · rw [hreset] at hok
        simp at hok
  · intro hnil s' hsave
    subst hnil
    have hzero : cartTotal [] = 0 := rfl
    have hfit : wrapInt (money - 0) = money := by
      rw [Int.sub_zero]
      exact wrapInt_eq_self hmoney
    rw [hzero, ResetCart_of_save db s s' hsave, hfit]
    constructor
    · constructor
      · intro hok
        by_cases hlt : money < 0
        · rw [if_pos hlt] at hok
          simp at hok
        · omega
      · intro hge
        rw [if_neg (by omega)]
    · intro hge
      rw [if_neg (by omega)]

end Scenario

/-! ## Concrete runs of resets, failures, invariants and the scenario -/

/-- Resetting a cart of five apples twice in the in-memory store. -/
theorem ResetCart_idempotent_witness :
    ShowCart memDB ⟨appleCatalog, []⟩ = (([], none), ⟨appleCatalog, []⟩)
      ∧ (memDB.GetCartItems ⟨appleCatalog, []⟩ = memDB.GetCartItems ⟨appleCatalog, []⟩
          ∧ memDB.GetProductData ⟨appleCatalog, []⟩ = memDB.GetProductData ⟨appleCatalog, []⟩
          ∧ ∀ name, memDB.GetProductByName ⟨appleCatalog, []⟩ name
              = memDB.GetProductByName ⟨appleCatalog, []⟩ name)
      ∧ (memDB.GetProductData (ResetCart memDB ⟨appleCatalog, appleCart⟩).2
            = memDB.GetProductData ⟨appleCatalog, appleCart⟩
          ∧ ∀ name, memDB.GetProductByName (ResetCart memDB ⟨appleCatalog, appleCart⟩).2 name
              = memDB.GetProductByName ⟨appleCatalog, appleCart⟩ name) :=
  ResetCart_idempotent memDB ⟨appleCatalog, appleCart⟩ ⟨appleCatalog, []⟩ ⟨appleCatalog, []⟩
    memDB_saveThenGet memDB_saveKeepsCatalog rfl rfl

/-- Adding two apples to a cart of five apples keeps the names distinct. -/
theorem NoDuplicateNames_invariant_witness :
    CartSatisfies NoDuplicateNames memDB
      ((Call.addCart "Apple" 2).after memDB ⟨appleCatalog, appleCart⟩) :=
  NoDuplicateNames_invariant memDB ⟨appleCatalog, appleCart⟩ (Call.addCart "Apple" 2)
    memDB_saveAtomic (memDB_lookup_name _)
    (by
      intro carts h
      cases h
      unfold NoDuplicateNames
      decide)

/-- Adding two apples to a cart of five apples keeps the quantities positive. -/
theorem PositiveQuantities_invariant_in_range_witness :
    CartSatisfies PositiveQuantities memDB
      ((Call.addCart "Apple" 2).after memDB ⟨appleCatalog, appleCart⟩) :=
  PositiveQuantities_invariant_in_range memDB ⟨appleCatalog, appleCart⟩ (Call.addCart "Apple" 2)
    memDB_saveAtomic
    (by
      intro carts h item hmem _
      cases h
      simp only [appleCart, List.mem_singleton] at hmem
      subst hmem
      decide)
    (by
      intro carts h
      cases h
      decide)

/-- Adding one to an entry that holds the largest `int` quantity: every
quantity was positive before the call and the only quantity is negative after
it. -/
theorem PositiveQuantities_counterexample :
    memDB.GetCartItems ⟨unitCatalog, fullCart⟩ = .ok fullCart
      ∧ PositiveQuantities fullCart
      ∧ AddCart memDB ⟨unitCatalog, fullCart⟩ "A" 1 = (none, ⟨unitCatalog, wrappedCart⟩)
      ∧ (Call.addCart "A" 1).after memDB ⟨unitCatalog, fullCart⟩ = ⟨unitCatalog, wrappedCart⟩
      ∧ memDB.GetCartItems ⟨unitCatalog, wrappedCart⟩ = .ok wrappedCart
      ∧ ¬ PositiveQuantities wrappedCart := by
  refine ⟨rfl, by decide, by decide, by decide, rfl, by decide⟩

/-- A store whose cart reads fail: `AddCart`, `RemoveCart` and `Pay` return
the error of the read and the store as it was. -/
theorem read_error_returned_witness :
    AddCart flakyDB brokenReadStore "Apple" 1
        = (some (Error.database ⟨"disk unreadable"⟩), brokenReadStore)
      ∧ RemoveCart flakyDB brokenReadStore "Apple"
        = (some (Error.database ⟨"disk unreadable"⟩), brokenReadStore)
      ∧ Pay flakyDB brokenReadStore 60
        = ((PaymentInformation.zero, some (Error.database ⟨"disk unreadable"⟩)),
            brokenReadStore) :=
  ⟨(read_error_returned flakyDB brokenReadStore "Apple" 1 60 ⟨"disk unreadable"⟩).2.1
      (by decide) ⟨⟨"Apple", 10⟩, rfl⟩ rfl,
    (read_error_returned flakyDB brokenReadStore "Apple" 1 60 ⟨"disk unreadable"⟩).2.2.1 rfl,
    (read_error_returned flakyDB brokenReadStore "Apple" 1 60 ⟨"disk unreadable"⟩).2.2.2 rfl⟩

/-- Paying 60 for five apples in a store whose saves fail. -/
theorem Pay_reset_error_witness :
    Pay flakyDB brokenSaveStore 60
      = ((PaymentInformation.zero, some (Error.database ⟨"disk full"⟩)), brokenSaveStore) :=
  Pay_reset_error flakyDB brokenSaveStore brokenSaveStore appleCart 60 ⟨"disk full"⟩ rfl
    (by decide) rfl

/-- The scenario in the in-memory store. -/
theorem apple_scenario_witness :
    memDB.GetCartItems ⟨appleCatalog, [⟨"Apple", 10, 3⟩]⟩
        = .ok [{ ProductName := "Apple", Price := 10, Quantity := 3 }]
      ∧ memDB.GetCartItems ⟨appleCatalog, appleCart⟩
        = .ok [{ ProductName := "Apple", Price := 10, Quantity := 5 }]
      ∧ Pay memDB ⟨appleCatalog, appleCart⟩ 40 =
          ((PaymentInformation.zero, some (Error.errorf "money is not enough")),
            ⟨appleCatalog, appleCart⟩)
      ∧ Pay memDB ⟨appleCatalog, appleCart⟩ 60 =
          (({ ProductList := [{ ProductName := "Apple", Price := 10, Quantity := 5 }],
              TotalPrice := 50, MoneyPaid := 60, Change := 10 }, none), ⟨appleCatalog, []⟩)
      ∧ memDB.GetCartItems ⟨appleCatalog, []⟩ = .ok [] :=
  apple_scenario memDB ⟨appleCatalog, []⟩ ⟨appleCatalog, [⟨"Apple", 10, 3⟩]⟩
    ⟨appleCatalog, appleCart⟩ ⟨appleCatalog, []⟩ memDB_saveThenGet rfl rfl (by decide)
    (by decide) rfl

/-- Showing a cart of five apples, and showing a cart that cannot be read. -/
theorem ShowCart_pure_read_witness :
    ShowCart memDB ⟨appleCatalog, appleCart⟩ = ((appleCart, none), ⟨appleCatalog, appleCart⟩)
      ∧ ShowCart flakyDB brokenReadStore
        = (([], some (Error.database ⟨"disk unreadable"⟩)), brokenReadStore) :=
  ⟨(ShowCart_pure_read memDB ⟨appleCatalog, appleCart⟩).1 appleCart rfl,
    (ShowCart_pure_read flakyDB brokenReadStore).2.1 ⟨"disk unreadable"⟩ rfl⟩

/-- Paying 40 for five apples at 10: the error comes with the zero value, not
with the total of 50. -/
theorem Pay_error_zero_witness :
    (Pay memDB ⟨appleCatalog, appleCart⟩ 40).1.1 = PaymentInformation.zero
      ∧ (Pay memDB ⟨appleCatalog, appleCart⟩ 40).1.1.ProductList = []
      ∧ (Pay memDB ⟨appleCatalog, appleCart⟩ 40).1.1.TotalPrice = 0
      ∧ (Pay memDB ⟨appleCatalog, appleCart⟩ 40).1.1.MoneyPaid = 0
      ∧ (Pay memDB ⟨appleCatalog, appleCart⟩ 40).1.1.Change = 0 :=
  Pay_error_zero memDB ⟨appleCatalog, appleCart⟩ 40 (by decide)

/-- Adding three apples to a cart that holds a pear and removing them again. -/
theorem AddCart_RemoveCart_roundtrip_witness :
    memDB.GetCartItems ⟨appleCatalog, [⟨"Pear", 4, 1⟩]⟩ = .ok [⟨"Pear", 4, 1⟩] :=
  AddCart_RemoveCart_roundtrip memDB ⟨appleCatalog, [⟨"Pear", 4, 1⟩]⟩
    ⟨appleCatalog, [⟨"Pear", 4, 1⟩, ⟨"Apple", 10, 3⟩]⟩ ⟨appleCatalog, [⟨"Pear", 4, 1⟩]⟩
    ⟨"Apple", 10⟩ [⟨"Pear", 4, 1⟩] 3 (by decide) rfl rfl (by decide) (by decide) (by decide)
    memDB_saveThenGet

/-- Paying 60 for five apples at 10 in the in-memory store. -/
theorem Pay_bounds_in_range_witness :
    0 ≤ (Pay memDB ⟨appleCatalog, appleCart⟩ 60).1.1.TotalPrice
      ∧ 0 ≤ (Pay memDB ⟨appleCatalog, appleCart⟩ 60).1.1.Change
      ∧ (Pay memDB ⟨appleCatalog, appleCart⟩ 60).1.1.TotalPrice
          + (Pay memDB ⟨appleCatalog, appleCart⟩ 60).1.1.Change
          = (Pay memDB ⟨appleCatalog, appleCart⟩ 60).1.1.MoneyPaid :=
  (Pay_bounds_in_range memDB ⟨appleCatalog, appleCart⟩ appleCart 60 rfl (by decide) (by decide)
    (by decide)).1 (by decide)

/-- An empty cart in a store whose saves fail: `Pay 5` has `money ≥ 0` and yet
fails, with the error of the save. -/
theorem Pay_empty_cart_counterexample :
    flakyDB.GetCartItems brokenSaveEmptyStore = .ok []
      ∧ (0 : Int) ≤ 5
      ∧ (Pay flakyDB brokenSaveEmptyStore 5).1.2 = some (Error.database ⟨"disk full"⟩)
      ∧ (Pay flakyDB brokenSaveEmptyStore 5).1.2 ≠ none := by
  refine ⟨rfl, by decide, by decide, by decide⟩

end service
